import Mathlib

/-!
Verification of the marknotion converter (md2notion.py / notion2md.py).

The development shallowly embeds the two conversion pipelines:

* `notion2md.py`: `blocks_to_markdown`, `_block_to_markdown`,
  `_rich_text_to_markdown` — serializing Notion-style blocks to Markdown.
* `md2notion.py`: `_tokens_to_blocks`, `_parse_list`, `_parse_blockquote`,
  `_inline_to_rich_text` and the `_make_*` constructors — assembling
  markdown-it tokens into Notion-style blocks.

Python dictionaries are embedded as structures whose fields carry the
defaults that the corresponding `dict.get` calls supply; `IndexError`
(out-of-range `tokens[i + 1]` accesses) is modelled by `Option`, with
`none` standing for the raised exception.  The external markdown-it
tokenizer is not part of the repository; where a claim needs it, its
output on the specific input class is modelled from the spec.
-/

/-- Formatting annotations of a rich-text run.  Embeds the Python
`annotations` dictionary: a key that is absent from the dictionary is a
field that is `false` (the code only ever stores `True` under a key and
removes the key to clear it, and every read uses `.get`, so the two
representations agree). -/
structure Annotations where
  bold : Bool := false
  italic : Bool := false
  strikethrough : Bool := false
  code : Bool := false
deriving DecidableEq, Repr

/-- A rich-text run.  Embeds the dictionaries produced by
`_make_rich_text`: `plain_text` and `content` are the `plain_text` and
`text.content` entries, `href` is the top-level `href` entry (`none` for
Python `None`). -/
structure RichText where
  plain_text : String := ""
  content : String := ""
  annotations : Annotations := {}
  href : Option String := none
deriving DecidableEq, Repr

/-- A Notion-style block.  Embeds the block dictionaries: `type` is the
`type` entry (`""` when the key is missing, matching
`block.get("type", "")`), and the remaining fields are the entries of the
per-kind payload dictionary with the defaults used by the serializer
(`rich_text` defaults to `[]`, `language` to `""`, `checked` to
`False`). -/
structure Block where
  type : String := ""
  rich_text : List RichText := []
  language : String := ""
  checked : Bool := false
deriving DecidableEq, Repr

/-! ## notion2md.py -/

/-- One iteration of the loop in `_rich_text_to_markdown`: renders a
single rich-text item, applying formatting in the order code, bold,
italic, strikethrough, then the link. -/
def _rich_text_item_to_markdown (item : RichText) : String :=
  let text := if item.plain_text = "" then item.content else item.plain_text
  let text := if item.annotations.code then "`" ++ text ++ "`" else text
  let text := if item.annotations.bold then "**" ++ text ++ "**" else text
  let text := if item.annotations.italic then "*" ++ text ++ "*" else text
  let text := if item.annotations.strikethrough then "~~" ++ text ++ "~~" else text
  match item.href with
  | some url => if url = "" then text else "[" ++ text ++ "](" ++ url ++ ")"
  | none => text

/-- `_rich_text_to_markdown`: renders every item and concatenates the
parts with no separator (`"".join(parts)`). -/
def _rich_text_to_markdown : List RichText → String
  | [] => ""
  | item :: rest => _rich_text_item_to_markdown item ++ _rich_text_to_markdown rest

/-- Python `sep.join(strings)`. -/
def _join_sep (sep : String) : List String → String
  | [] => ""
  | [x] => x
  | x :: y :: xs => x ++ sep ++ _join_sep sep (y :: xs)

/-- Helper for `_split_newline`: walks the characters, accumulating the
current piece in reverse. -/
def _split_newline_aux : List Char → List Char → List String
  | [], acc => [String.mk acc.reverse]
  | c :: cs, acc =>
    if c == '\n' then String.mk acc.reverse :: _split_newline_aux cs []
    else _split_newline_aux cs (c :: acc)

/-- Python `text.split("\n")`: splits at every newline, keeping empty
pieces (the empty string yields `[""]`). -/
def _split_newline (s : String) : List String :=
  _split_newline_aux s.data []

/-- `_block_to_markdown`: the per-kind dispatch on `block["type"]`;
unrecognized kinds fall through to the empty string. -/
def _block_to_markdown (block : Block) : String :=
  if block.type = "paragraph" then
    _rich_text_to_markdown block.rich_text
  else if block.type = "heading_1" then
    "# " ++ _rich_text_to_markdown block.rich_text
  else if block.type = "heading_2" then
    "## " ++ _rich_text_to_markdown block.rich_text
  else if block.type = "heading_3" then
    "### " ++ _rich_text_to_markdown block.rich_text
  else if block.type = "bulleted_list_item" then
    "- " ++ _rich_text_to_markdown block.rich_text
  else if block.type = "numbered_list_item" then
    "1. " ++ _rich_text_to_markdown block.rich_text
  else if block.type = "code" then
    let text := _rich_text_to_markdown block.rich_text
    let language := if block.language = "plain text" then "" else block.language
    "```" ++ language ++ "\n" ++ text ++ "\n```"
  else if block.type = "quote" then
    let text := _rich_text_to_markdown block.rich_text
    _join_sep "\n" ((_split_newline text).map (fun line => "> " ++ line))
  else if block.type = "divider" then
    "---"
  else if block.type = "to_do" then
    let text := _rich_text_to_markdown block.rich_text
    let checkbox := if block.checked then "[x]" else "[ ]"
    "- " ++ checkbox ++ " " ++ text
  else
    ""

/-- Python truthiness of the `prev_type: str | None` loop variable of
`blocks_to_markdown` (`None` and `""` are falsy). -/
def _py_truthy : Option String → Bool
  | none => false
  | some s => s != ""

/-- The membership test `t in ("bulleted_list_item", "numbered_list_item")`
used by the list-continuation rule. -/
def _is_list_item_type (t : String) : Bool :=
  t == "bulleted_list_item" || t == "numbered_list_item"

/-- The loop of `blocks_to_markdown`: builds the `lines` list, inserting
an empty line between consecutive non-empty fragments unless both the
previous emitted block and the current block are list items; blocks whose
fragment is empty are skipped and do not update `prev_type`. -/
def _blocks_to_markdown_lines (prev_type : Option String) : List Block → List String
  | [] => []
  | block :: rest =>
    let block_type := block.type
    let content := _block_to_markdown block
    if content = "" then
      _blocks_to_markdown_lines prev_type rest
    else
      (if _py_truthy prev_type
          && !(_is_list_item_type (prev_type.getD "") && _is_list_item_type block_type)
       then [""] else [])
        ++ content :: _blocks_to_markdown_lines (some block_type) rest

/-- `blocks_to_markdown`: renders the lines and joins them with
`"\n".join(lines)`. -/
def blocks_to_markdown (blocks : List Block) : String :=
  _join_sep "\n" (_blocks_to_markdown_lines none blocks)

example :
    blocks_to_markdown
      [{ type := "heading_1", rich_text := [{ plain_text := "Title", content := "Title" }] },
       { type := "bulleted_list_item", rich_text := [{ plain_text := "a", content := "a" }] },
       { type := "bulleted_list_item", rich_text := [{ plain_text := "b", content := "b" }] },
       { type := "paragraph", rich_text := [{ plain_text := "p", content := "p" }] }]
      = "# Title\n\n- a\n- b\n\np" := by decide

example :
    _block_to_markdown
      { type := "to_do", checked := true,
        rich_text := [{ plain_text := "task", content := "task" }] } = "- [x] task" := by decide

example :
    _block_to_markdown
      { type := "quote",
        rich_text := [{ plain_text := "a\nb", content := "a\nb" }] } = "> a\n> b" := by decide

/-! ## md2notion.py -/

/-- An inline child token of a markdown-it `inline` token.  `link_open`
carries the value of `token.attrGet("href")` (`none` for a missing
attribute); `other` stands for any inline token type that
`_inline_to_rich_text` does not recognize. -/
inductive InlineToken where
  | text (content : String)
  | code_inline (content : String)
  | strong_open
  | strong_close
  | em_open
  | em_close
  | s_open
  | s_close
  | link_open (href : Option String)
  | link_close
  | softbreak
  | hardbreak
  | other
deriving DecidableEq, Repr

/-- A markdown-it block-level token.  `heading_open` carries the level
parsed from the tag (`int(token.tag[1])`); `inline` carries its children;
`fence` carries the info string and content; `other` stands for any token
type not recognized by `_tokens_to_blocks` (such as the close tokens it
steps over). -/
inductive Token where
  | heading_open (level : Nat)
  | heading_close
  | paragraph_open
  | paragraph_close
  | inline (children : List InlineToken)
  | bullet_list_open
  | bullet_list_close
  | ordered_list_open
  | ordered_list_close
  | list_item_open
  | list_item_close
  | fence (info : String) (content : String)
  | code_block (content : String)
  | blockquote_open
  | blockquote_close
  | hr
  | other
deriving DecidableEq, Repr

/-- The expression `inline_token.children or []`: the children of an
`inline` token, and `[]` for every other token (whose `children`
attribute is `None`). -/
def Token.childrenOrEmpty : Token → List InlineToken
  | .inline children => children
  | _ => []

/-- `_make_rich_text`: builds a rich-text item whose `plain_text` and
`text.content` entries are both the given content. -/
def _make_rich_text (content : String) (annotations : Annotations) (href : Option String) :
    RichText :=
  { plain_text := content, content := content, annotations := annotations, href := href }

/-- `_make_paragraph_block`. -/
def _make_paragraph_block (rich_text : List RichText) : Block :=
  { type := "paragraph", rich_text := rich_text }

/-- `_make_heading_block`: collapses levels above 3 to `heading_3`. -/
def _make_heading_block (level : Nat) (rich_text : List RichText) : Block :=
  { type := "heading_" ++ toString (min level 3), rich_text := rich_text }

/-- `_make_list_item_block`. -/
def _make_list_item_block (list_type : String) (rich_text : List RichText) : Block :=
  { type := list_type, rich_text := rich_text }

/-- `_make_code_block`. -/
def _make_code_block (content : String) (language : String) : Block :=
  { type := "code", rich_text := [_make_rich_text content {} none], language := language }

/-- `_make_quote_block`. -/
def _make_quote_block (rich_text : List RichText) : Block :=
  { type := "quote", rich_text := rich_text }

/-- `_make_divider_block`. -/
def _make_divider_block : Block :=
  { type := "divider" }

/-- Python `content.rstrip("\n")`: removes every trailing newline. -/
def _rstrip_newlines (s : String) : String :=
  String.mk (s.data.reverse.dropWhile (fun c => c == '\n')).reverse

/-- The loop of `_inline_to_rich_text`, threading the mutable
`annotations` dictionary and `link_href` variable through the walk. -/
def _inline_to_rich_text_aux (annotations : Annotations) (link_href : Option String) :
    List InlineToken → List RichText
  | [] => []
  | token :: rest =>
    match token with
    | .text content =>
      if content = "" then _inline_to_rich_text_aux annotations link_href rest
      else _make_rich_text content annotations link_href
        :: _inline_to_rich_text_aux annotations link_href rest
    | .code_inline content =>
      _make_rich_text content { code := true } none
        :: _inline_to_rich_text_aux annotations link_href rest
    | .strong_open => _inline_to_rich_text_aux { annotations with bold := true } link_href rest
    | .strong_close => _inline_to_rich_text_aux { annotations with bold := false } link_href rest
    | .em_open => _inline_to_rich_text_aux { annotations with italic := true } link_href rest
    | .em_close => _inline_to_rich_text_aux { annotations with italic := false } link_href rest
    | .s_open =>
      _inline_to_rich_text_aux { annotations with strikethrough := true } link_href rest
    | .s_close =>
      _inline_to_rich_text_aux { annotations with strikethrough := false } link_href rest
    | .link_open href => _inline_to_rich_text_aux annotations href rest
    | .link_close => _inline_to_rich_text_aux annotations none rest
    | .softbreak =>
      _make_rich_text "\n" {} none :: _inline_to_rich_text_aux annotations link_href rest
    | .hardbreak =>
      _make_rich_text "\n" {} none :: _inline_to_rich_text_aux annotations link_href rest
    | .other => _inline_to_rich_text_aux annotations link_href rest

/-- `_inline_to_rich_text`: starts from an empty annotation set and no
active link. -/
def _inline_to_rich_text (tokens : List InlineToken) : List RichText :=
  _inline_to_rich_text_aux {} none tokens

example :
    _inline_to_rich_text
      [.strong_open, .text "bold", .strong_close, .text " tail"]
      = [_make_rich_text "bold" { bold := true } none,
         _make_rich_text " tail" {} none] := by decide


/-- The inner nested-list skip of `_parse_list` (the `nested_depth`
loop): the number of tokens the loop consumes (each iteration advances
the cursor by one) until the nested depth returns to zero or the tokens
run out. -/
def _skip_count : Nat → List Token → Nat
  | 0, _ => 0
  | _ + 1, [] => 0
  | nested_depth + 1, token :: rest =>
    match token with
    | .bullet_list_open => _skip_count (nested_depth + 2) rest + 1
    | .ordered_list_open => _skip_count (nested_depth + 2) rest + 1
    | .bullet_list_close => _skip_count nested_depth rest + 1
    | .ordered_list_close => _skip_count nested_depth rest + 1
    | _ => _skip_count (nested_depth + 1) rest + 1

/-- The item-content scan of `_parse_list` (the loop that runs from just
past a `list_item_open` until the matching `list_item_close`),
accumulating the `item_content` list.  Returns the content together with
the number of tokens consumed, so that the caller continues at the
`list_item_close` (Python's cursor `i`); `none` models the `IndexError`
raised by the `tokens[i + 1]` access when a `paragraph_open` is the
final token. -/
def _item_scan (item_content : List (List RichText)) :
    List Token → Option (List (List RichText) × Nat)
  | [] => some (item_content, 0)
  | token :: rest =>
    match token with
    | .list_item_close => some (item_content, 0)
    | .paragraph_open =>
      match rest with
      | [] => none
      | inline_token :: rest1 =>
        (_item_scan (item_content ++ [_inline_to_rich_text inline_token.childrenOrEmpty])
            (rest1.drop 1)).map
          (fun r => (r.1, r.2 + 3))
    | .bullet_list_open =>
      (_item_scan item_content (rest.drop (_skip_count 1 rest))).map
        (fun r => (r.1, r.2 + _skip_count 1 rest + 1))
    | .ordered_list_open =>
      (_item_scan item_content (rest.drop (_skip_count 1 rest))).map
        (fun r => (r.1, r.2 + _skip_count 1 rest + 1))
    | _ => (_item_scan item_content rest).map (fun r => (r.1, r.2 + 1))
termination_by tokens => tokens.length
decreasing_by
  all_goals simp [List.length_drop]
  all_goals omega

/-- The loop of `_parse_list`, entered with the cursor just past the
`list_open` token (the Python loop starts at `i = 1` with `depth = 1`).
Returns the blocks together with the number of tokens consumed from that
point on. -/
def _parse_list_aux (list_type : String) : Nat → List Token → Option (List Block × Nat)
  | 0, _ => some ([], 0)
  | _ + 1, [] => some ([], 0)
  | depth + 1, token :: rest =>
    match token with
    | .bullet_list_open =>
      (_parse_list_aux list_type (depth + 2) rest).map (fun r => (r.1, r.2 + 1))
    | .ordered_list_open =>
      (_parse_list_aux list_type (depth + 2) rest).map (fun r => (r.1, r.2 + 1))
    | .bullet_list_close =>
      (_parse_list_aux list_type depth rest).map (fun r => (r.1, r.2 + 1))
    | .ordered_list_close =>
      (_parse_list_aux list_type depth rest).map (fun r => (r.1, r.2 + 1))
    | .list_item_open =>
      if depth = 0 then
        match _item_scan [] rest with
        | none => none
        | some (item_content, k) =>
          match _parse_list_aux list_type 1 (rest.drop (k + 1)) with
          | none => none
          | some (blocks, k2) =>
            some ((match item_content with
                   | [] => blocks
                   | rich_text :: _ => _make_list_item_block list_type rich_text :: blocks),
                  k + 2 + k2)
      else (_parse_list_aux list_type (depth + 1) rest).map (fun r => (r.1, r.2 + 1))
    | _ => (_parse_list_aux list_type (depth + 1) rest).map (fun r => (r.1, r.2 + 1))
termination_by _d tokens => tokens.length
decreasing_by
  all_goals simp [List.length_drop]
  all_goals omega

/-- The loop of `_parse_blockquote`, entered with the cursor just past
the `blockquote_open` token.  Returns the concatenated `quote_text` runs
together with the number of tokens consumed from that point on. -/
def _parse_blockquote_aux : Nat → List Token → Option (List RichText × Nat)
  | 0, _ => some ([], 0)
  | _ + 1, [] => some ([], 0)
  | depth + 1, token :: rest =>
    match token with
    | .blockquote_open =>
      (_parse_blockquote_aux (depth + 2) rest).map (fun r => (r.1, r.2 + 1))
    | .blockquote_close =>
      (_parse_blockquote_aux depth rest).map (fun r => (r.1, r.2 + 1))
    | .paragraph_open =>
      if depth = 0 then
        match rest with
        | [] => none
        | inline_token :: rest1 =>
          (_parse_blockquote_aux 1 (rest1.drop 1)).map
            (fun r => (_inline_to_rich_text inline_token.childrenOrEmpty ++ r.1, r.2 + 3))
      else (_parse_blockquote_aux (depth + 1) rest).map (fun r => (r.1, r.2 + 1))
    | _ => (_parse_blockquote_aux (depth + 1) rest).map (fun r => (r.1, r.2 + 1))
termination_by _d tokens => tokens.length
decreasing_by
  all_goals simp [List.length_drop]
  all_goals omega

/-- `_tokens_to_blocks`: the main assembly loop.  The Python cursor
arithmetic (`i += 3`, `i += consumed`, …) is rendered as the
corresponding `List.drop`; `none` models a propagated `IndexError` from
a `tokens[i + 1]` access past the end. -/
def _tokens_to_blocks : List Token → Option (List Block)
  | [] => some []
  | token :: rest =>
    match token with
    | .heading_open level =>
      match rest with
      | [] => none
      | inline_token :: rest1 =>
        match _tokens_to_blocks (rest1.drop 1) with
        | none => none
        | some blocks =>
          some (_make_heading_block level
              (_inline_to_rich_text inline_token.childrenOrEmpty) :: blocks)
    | .paragraph_open =>
      match rest with
      | [] => none
      | inline_token :: rest1 =>
        match _tokens_to_blocks (rest1.drop 1) with
        | none => none
        | some blocks =>
          some (_make_paragraph_block
              (_inline_to_rich_text inline_token.childrenOrEmpty) :: blocks)
    | .bullet_list_open =>
      match _parse_list_aux "bulleted_list_item" 1 rest with
      | none => none
      | some (list_blocks, consumed) =>
        match _tokens_to_blocks (rest.drop consumed) with
        | none => none
        | some blocks => some (list_blocks ++ blocks)
    | .ordered_list_open =>
      match _parse_list_aux "numbered_list_item" 1 rest with
      | none => none
      | some (list_blocks, consumed) =>
        match _tokens_to_blocks (rest.drop consumed) with
        | none => none
        | some blocks => some (list_blocks ++ blocks)
    | .fence info content =>
      match _tokens_to_blocks rest with
      | none => none
      | some blocks =>
        some (_make_code_block (_rstrip_newlines content)
            (if info = "" then "plain text" else info) :: blocks)
    | .code_block content =>
      match _tokens_to_blocks rest with
      | none => none
      | some blocks => some (_make_code_block (_rstrip_newlines content) "plain text" :: blocks)
    | .blockquote_open =>
      match _parse_blockquote_aux 1 rest with
      | none => none
      | some (quote_text, consumed) =>
        match _tokens_to_blocks (rest.drop consumed) with
        | none => none
        | some blocks =>
          some ((match quote_text with
                 | [] => []
                 | _ :: _ => [_make_quote_block quote_text]) ++ blocks)
    | .hr =>
      match _tokens_to_blocks rest with
      | none => none
      | some blocks => some (_make_divider_block :: blocks)
    | _ => _tokens_to_blocks rest
termination_by tokens => tokens.length
decreasing_by
  all_goals simp [List.length_drop]
  all_goals omega

example :
    _tokens_to_blocks
      [.heading_open 2, .inline [.text "Title"], .heading_close,
       .paragraph_open, .inline [.text "Body"], .paragraph_close]
      = some [{ type := "heading_2", rich_text := [_make_rich_text "Title" {} none] },
              { type := "paragraph", rich_text := [_make_rich_text "Body" {} none] }] := by
  simp [_tokens_to_blocks, _make_heading_block, _make_paragraph_block, _make_rich_text,
    _inline_to_rich_text, _inline_to_rich_text_aux, Token.childrenOrEmpty]
  decide

example :
    _tokens_to_blocks
      [.bullet_list_open,
       .list_item_open, .paragraph_open, .inline [.text "one"], .paragraph_close,
       .list_item_close,
       .list_item_open, .paragraph_open, .inline [.text "two"], .paragraph_close,
       .bullet_list_open,
       .list_item_open, .paragraph_open, .inline [.text "nested"], .paragraph_close,
       .list_item_close,
       .bullet_list_close,
       .list_item_close,
       .bullet_list_close,
       .paragraph_open, .inline [.text "after"], .paragraph_close]
      = some [{ type := "bulleted_list_item", rich_text := [_make_rich_text "one" {} none] },
              { type := "bulleted_list_item", rich_text := [_make_rich_text "two" {} none] },
              { type := "paragraph", rich_text := [_make_rich_text "after" {} none] }] := by
  simp [_tokens_to_blocks, _parse_list_aux, _item_scan, _skip_count, _make_list_item_block,
    _make_paragraph_block, _make_rich_text, _inline_to_rich_text, _inline_to_rich_text_aux,
    Token.childrenOrEmpty]

example :
    _tokens_to_blocks
      [.blockquote_open,
       .paragraph_open, .inline [.text "q1"], .paragraph_close,
       .paragraph_open, .inline [.text "q2"], .paragraph_close,
       .blockquote_close, .hr]
      = some [{ type := "quote",
                rich_text := [_make_rich_text "q1" {} none, _make_rich_text "q2" {} none] },
              { type := "divider" }] := by
  simp [_tokens_to_blocks, _parse_blockquote_aux, _make_quote_block, _make_divider_block,
    _make_rich_text, _inline_to_rich_text, _inline_to_rich_text_aux, Token.childrenOrEmpty]

example :
    _tokens_to_blocks [.fence "" "x\n\n", .code_block "y\n"]
      = some [_make_code_block "x" "plain text", _make_code_block "y" "plain text"] := by
  simp [_tokens_to_blocks, _make_code_block, _make_rich_text, _rstrip_newlines]

/-! ## Claim C3: code spans -/

/-- Claim C3: on a `code_inline` token the inline run resolver emits
exactly one run, whose annotation set is exactly the singleton `code`
(bold, italic and strikethrough unset) and whose link is absent, for
every current annotation state and every active link target, and the
walk continues with that state unchanged. -/
theorem code_span_single_run (annotations : Annotations) (link_href : Option String)
    (content : String) (rest : List InlineToken) :
    _inline_to_rich_text_aux annotations link_href (.code_inline content :: rest) =
      { plain_text := content, content := content,
        annotations := { bold := false, italic := false, strikethrough := false, code := true },
        href := none } :: _inline_to_rich_text_aux annotations link_href rest := rfl

theorem code_span_single_run_witness :
    _inline_to_rich_text_aux { bold := true, italic := true } (some "https://x.example")
        [.code_inline "f(x)"] =
      [{ plain_text := "f(x)", content := "f(x)",
         annotations := { bold := false, italic := false, strikethrough := false, code := true },
         href := none }] := by
  rw [code_span_single_run]
  rfl

/-! ## Claim C4: rich-text rendering order -/

/-- The text of a run, as the claim reads it: the `plain_text` entry,
falling back to `text.content` when `plain_text` is empty (the wire
model stores the same text in both places). -/
def run_text_spec (r : RichText) : String :=
  if r.plain_text = "" then r.content else r.plain_text

/-- Backtick wrap applied when the `code` annotation is set. -/
def wrap_code_spec (a : Annotations) (text : String) : String :=
  if a.code then "`" ++ text ++ "`" else text

/-- Double-asterisk wrap applied when the `bold` annotation is set. -/
def wrap_bold_spec (a : Annotations) (text : String) : String :=
  if a.bold then "**" ++ text ++ "**" else text

/-- Single-asterisk wrap applied when the `italic` annotation is set. -/
def wrap_italic_spec (a : Annotations) (text : String) : String :=
  if a.italic then "*" ++ text ++ "*" else text

/-- Double-tilde wrap applied when the `strikethrough` annotation is
set. -/
def wrap_strikethrough_spec (a : Annotations) (text : String) : String :=
  if a.strikethrough then "~~" ++ text ++ "~~" else text

/-- Link wrap applied last, when a link is present (a Python-truthy
`href`), around the whole already-wrapped text. -/
def wrap_link_spec (href : Option String) (text : String) : String :=
  match href with
  | some url => if url = "" then text else "[" ++ text ++ "](" ++ url ++ ")"
  | none => text

/-- The claimed per-run rendering: the run's text wrapped innermost-first
by code, then bold, then italic, then strikethrough, with the link wrap
outermost. -/
def render_run_spec (r : RichText) : String :=
  wrap_link_spec r.href
    (wrap_strikethrough_spec r.annotations
      (wrap_italic_spec r.annotations
        (wrap_bold_spec r.annotations
          (wrap_code_spec r.annotations (run_text_spec r)))))

/-- Concatenation of the rendered runs with no separator. -/
def concat_parts_spec : List String → String
  | [] => ""
  | part :: rest => part ++ concat_parts_spec rest

/-- Claim C4: the rich-text renderer produces, for every run, its text
wrapped in the fixed order backticks (code), then double asterisks
(bold), then single asterisks (italic), then double tildes
(strikethrough), with a present link wrapping the whole result as a
Markdown link, and concatenates the rendered runs with no separator. -/
theorem renderer_wrap_order (rich_text : List RichText) :
    _rich_text_to_markdown rich_text = concat_parts_spec (rich_text.map render_run_spec) := by
  induction rich_text with
  | nil => rfl
  | cons item rest ih =>
    have hitem : _rich_text_item_to_markdown item = render_run_spec item := by
      unfold _rich_text_item_to_markdown render_run_spec run_text_spec wrap_code_spec
        wrap_bold_spec wrap_italic_spec wrap_strikethrough_spec wrap_link_spec
      rfl
    simp only [_rich_text_to_markdown, concat_parts_spec, List.map, ih, hitem]

theorem renderer_wrap_order_witness :
    _rich_text_to_markdown
        [{ plain_text := "hi", content := "hi",
           annotations := { bold := true, italic := true, strikethrough := true, code := true },
           href := some "https://e.example" }] =
      "[~~***`hi`***~~](https://e.example)" := by
  rw [renderer_wrap_order]
  rfl

/-! ## Claim C6: fenced code blocks -/

theorem _rstrip_newlines_append_newline (s : String) (h : s.data.getLast? ≠ some '\n') :
    _rstrip_newlines (s ++ "\n") = s := by
  unfold _rstrip_newlines
  rw [String.data_append]
  have hdrop : s.data.reverse.dropWhile (fun c => c == '\n') = s.data.reverse := by
    cases hrev : s.data.reverse with
    | nil => rfl
    | cons c cs =>
      have hc : c ≠ '\n' := by
        intro hceq
        apply h
        rw [← List.head?_reverse, hrev, hceq]
        rfl
      simp [List.dropWhile_cons, hc]
  show String.mk ((s.data ++ "\n".data).reverse.dropWhile (fun c => c == '\n')).reverse = s
  have : ("\n".data : List Char) = ['\n'] := rfl
  rw [this, List.reverse_append]
  show String.mk (('\n' :: s.data.reverse).dropWhile (fun c => c == '\n')).reverse = s
  rw [List.dropWhile_cons]
  simp only [beq_self_eq_true, if_true]
  rw [hdrop, List.reverse_reverse]

/-- Claim C6: a fence token with a non-empty info string and a content
ending in a single trailing newline yields a code block whose language
is the info string and whose content is the fence content with the
trailing newline stripped (in particular info `"python"` and content
`"print('hi')\n"` give language `"python"` and content `"print('hi')"`);
a fence token with an empty info string yields language `"plain text"`;
and serializing a code block whose language is `"plain text"` emits a
fence with an empty info string. -/
theorem fence_language_round_trip :
    (∀ (s info : String), info ≠ "" → s.data.getLast? ≠ some '\n' →
      _tokens_to_blocks [.fence info (s ++ "\n")] =
        some [{ type := "code", rich_text := [_make_rich_text s {} none], language := info }])
    ∧ (∀ s : String, s.data.getLast? ≠ some '\n' →
      _tokens_to_blocks [.fence "" (s ++ "\n")] =
        some [{ type := "code", rich_text := [_make_rich_text s {} none],
                language := "plain text" }])
    ∧ (∀ rich_text : List RichText,
      _block_to_markdown { type := "code", rich_text := rich_text, language := "plain text" } =
        "```" ++ "\n" ++ _rich_text_to_markdown rich_text ++ "\n```") := by
  refine ⟨?_, ?_, ?_⟩
  · intro s info hinfo hs
    simp [_tokens_to_blocks, _make_code_block, _rstrip_newlines_append_newline s hs, hinfo]
  · intro s hs
    simp [_tokens_to_blocks, _make_code_block, _rstrip_newlines_append_newline s hs]
  · intro rich_text
    simp [_block_to_markdown]

theorem fence_language_round_trip_witness :
    (_tokens_to_blocks [.fence "python" ("print(hi)" ++ "\n")] =
      some [{ type := "code", rich_text := [_make_rich_text "print(hi)" {} none],
                language := "python" }])
    ∧ (_tokens_to_blocks [.fence "" ("x = 1" ++ "\n")] =
      some [{ type := "code", rich_text := [_make_rich_text "x = 1" {} none],
                language := "plain text" }])
    ∧ (_block_to_markdown
          { type := "code", rich_text := [_make_rich_text "x = 1" {} none],
            language := "plain text" } =
        "```" ++ "\n" ++ _rich_text_to_markdown [_make_rich_text "x = 1" {} none] ++ "\n```") :=
  ⟨fence_language_round_trip.1 "print(hi)" "python" (by decide) (by decide),
   fence_language_round_trip.2.1 "x = 1" (by decide),
   fence_language_round_trip.2.2 [_make_rich_text "x = 1" {} none]⟩

/-! ## Claim C7: empty fragments are skipped -/

theorem _blocks_to_markdown_lines_filter (blocks : List Block) :
    ∀ prev_type : Option String,
      _blocks_to_markdown_lines prev_type blocks =
        _blocks_to_markdown_lines prev_type
          (blocks.filter (fun block => _block_to_markdown block != "")) := by
  induction blocks with
  | nil => intro prev_type; rfl
  | cons block rest ih =>
    intro prev_type
    by_cases hc : _block_to_markdown block = ""
    · simp only [List.filter_cons, hc]
      simp only [_blocks_to_markdown_lines, hc, if_pos rfl, bne_self_eq_false]
      exact ih prev_type
    · have hbne : (_block_to_markdown block != "") = true := by simp [hc]
      simp only [List.filter_cons, hbne, if_pos]
      simp only [_blocks_to_markdown_lines, if_neg hc]
      rw [ih (some block.type)]

/-- Claim C7: in `blocks_to_markdown` every block whose per-kind
fragment is the empty string contributes nothing: it emits no line,
triggers no blank-line separator and leaves the previous-block-type
accumulator unchanged, so the result equals serializing the sequence
with all empty-fragment blocks removed. -/
theorem empty_fragments_skipped (blocks : List Block) :
    blocks_to_markdown blocks =
      blocks_to_markdown (blocks.filter (fun block => _block_to_markdown block != "")) := by
  unfold blocks_to_markdown
  rw [_blocks_to_markdown_lines_filter blocks none]

theorem empty_fragments_skipped_witness :
    blocks_to_markdown
        [{ type := "paragraph", rich_text := [_make_rich_text "a" {} none] },
         { type := "quote", rich_text := [] },
         { type := "paragraph", rich_text := [_make_rich_text "b" {} none] }] =
      blocks_to_markdown
        (List.filter (fun block => _block_to_markdown block != "")
          [{ type := "paragraph", rich_text := [_make_rich_text "a" {} none] },
           { type := "quote", rich_text := [] },
           { type := "paragraph", rich_text := [_make_rich_text "b" {} none] }]) :=
  empty_fragments_skipped
    [{ type := "paragraph", rich_text := [_make_rich_text "a" {} none] },
     { type := "quote", rich_text := [] },
     { type := "paragraph", rich_text := [_make_rich_text "b" {} none] }]

/-! ## Claim C10: unrecognized block kinds -/

/-- The ten block kinds recognized by `_block_to_markdown`. -/
def supported_block_types : List String :=
  ["paragraph", "heading_1", "heading_2", "heading_3", "bulleted_list_item",
   "numbered_list_item", "code", "quote", "divider", "to_do"]

theorem _blocks_to_markdown_lines_skip (block : Block) (hc : _block_to_markdown block = "") :
    ∀ (pre post : List Block) (prev_type : Option String),
      _blocks_to_markdown_lines prev_type (pre ++ block :: post) =
        _blocks_to_markdown_lines prev_type (pre ++ post) := by
  intro pre
  induction pre with
  | nil =>
    intro post prev_type
    simp [_blocks_to_markdown_lines, hc]
  | cons b rest ih =>
    intro post prev_type
    simp only [List.cons_append, _blocks_to_markdown_lines, List.append_eq]
    by_cases hb : _block_to_markdown b = ""
    · simp only [hb, if_pos rfl]
      exact ih post prev_type
    · simp only [if_neg hb]
      rw [ih post (some b.type)]

/-- Claim C10: `blocks_to_markdown` is total over arbitrary block
values; a block whose `type` is missing (embedded as `""`) or not one of
the ten supported kinds renders as the empty fragment and is skipped
entirely, never affecting the separators between the surrounding
blocks. -/
theorem unrecognized_block_types_skipped (block : Block)
    (h : block.type ∉ supported_block_types) :
    _block_to_markdown block = "" ∧
      ∀ (pre post : List Block),
        blocks_to_markdown (pre ++ block :: post) = blocks_to_markdown (pre ++ post) := by
  have hc : _block_to_markdown block = "" := by
    simp only [supported_block_types, List.mem_cons, List.not_mem_nil, or_false] at h
    push_neg at h
    obtain ⟨h1, h2, h3, h4, h5, h6, h7, h8, h9, h10⟩ := h
    simp only [_block_to_markdown, if_neg h1, if_neg h2, if_neg h3, if_neg h4, if_neg h5,
      if_neg h6, if_neg h7, if_neg h8, if_neg h9, if_neg h10]
  refine ⟨hc, ?_⟩
  intro pre post
  unfold blocks_to_markdown
  rw [_blocks_to_markdown_lines_skip block hc pre post none]

theorem unrecognized_block_types_skipped_witness :
    _block_to_markdown { type := "callout", rich_text := [_make_rich_text "note" {} none] } = ""
    ∧ blocks_to_markdown
        [{ type := "paragraph", rich_text := [_make_rich_text "a" {} none] },
         { type := "callout", rich_text := [_make_rich_text "note" {} none] },
         { type := "paragraph", rich_text := [_make_rich_text "b" {} none] }] =
      blocks_to_markdown
        [{ type := "paragraph", rich_text := [_make_rich_text "a" {} none] },
         { type := "paragraph", rich_text := [_make_rich_text "b" {} none] }] := by
  have h := unrecognized_block_types_skipped
    { type := "callout", rich_text := [_make_rich_text "note" {} none] } (by decide)
  exact ⟨h.1,
    h.2 [{ type := "paragraph", rich_text := [_make_rich_text "a" {} none] }]
        [{ type := "paragraph", rich_text := [_make_rich_text "b" {} none] }]⟩

/-! ## Claim C2: separators between fragments -/

theorem _block_type_ne_empty (block : Block) (h : _block_to_markdown block ≠ "") :
    block.type ≠ "" := by
  intro ht
  apply h
  simp [_block_to_markdown, ht]

theorem _append_two_newlines (a b : String) : a ++ "\n" ++ ("\n" ++ b) = a ++ "\n\n" ++ b := by
  have h : ("\n" : String) ++ "\n" = "\n\n" := by decide
  calc a ++ "\n" ++ ("\n" ++ b)
      = a ++ ("\n" ++ ("\n" ++ b)) := by rw [String.append_assoc]
    _ = a ++ ("\n" ++ "\n" ++ b) := by rw [String.append_assoc]
    _ = a ++ ("\n\n" ++ b) := by rw [h]
    _ = a ++ "\n\n" ++ b := by rw [String.append_assoc]

/-- The separator the claim prescribes between two consecutive
non-empty fragments, from the types of their blocks: a single newline
when both are list items (`bulleted_list_item` or `numbered_list_item`,
in any combination), a blank line (two newlines) otherwise. -/
def _sep_spec (t1 t2 : String) : String :=
  if _is_list_item_type t1 && _is_list_item_type t2 then "\n" else "\n\n"

/-- The claim's view of serialization: the fragments of the given
blocks, joined by inserting between every pair of consecutive blocks —
at every position — the separator prescribed by their types. -/
def _join_fragments_spec : List Block → String
  | [] => ""
  | [b] => _block_to_markdown b
  | b1 :: b2 :: rest =>
    _block_to_markdown b1 ++ _sep_spec b1.type b2.type ++ _join_fragments_spec (b2 :: rest)

theorem _join_nonempty_fragments (bs : List Block) :
    ∀ (b1 : Block), _block_to_markdown b1 ≠ "" →
      (∀ b ∈ bs, _block_to_markdown b ≠ "") →
      _join_sep "\n" (_block_to_markdown b1 :: _blocks_to_markdown_lines (some b1.type) bs)
        = _join_fragments_spec (b1 :: bs) := by
  induction bs with
  | nil =>
    intro b1 h1 _
    rfl
  | cons b2 rest ih =>
    intro b1 h1 hall
    have h2 : _block_to_markdown b2 ≠ "" := hall b2 (by simp)
    have hrest : ∀ b ∈ rest, _block_to_markdown b ≠ "" := fun b hb => hall b (by simp [hb])
    have hb1 : b1.type ≠ "" := _block_type_ne_empty b1 h1
    have hbne : (b1.type != "") = true := by simp [hb1]
    simp only [_blocks_to_markdown_lines, if_neg h2, _py_truthy, hbne, Option.getD_some,
      Bool.true_and]
    by_cases hl : (_is_list_item_type b1.type && _is_list_item_type b2.type) = true
    · simp only [hl, Bool.not_true, Bool.false_eq_true, if_false, List.nil_append]
      rw [show _join_sep "\n" (_block_to_markdown b1 :: _block_to_markdown b2
              :: _blocks_to_markdown_lines (some b2.type) rest)
          = _block_to_markdown b1 ++ "\n" ++ _join_sep "\n" (_block_to_markdown b2
              :: _blocks_to_markdown_lines (some b2.type) rest) from rfl]
      rw [ih b2 h2 hrest]
      simp [_join_fragments_spec, _sep_spec, hl]
    · simp only [Bool.not_eq_true] at hl
      simp only [hl, Bool.not_false, if_true, List.cons_append, List.nil_append]
      rw [show _join_sep "\n" (_block_to_markdown b1 :: "" :: _block_to_markdown b2
              :: _blocks_to_markdown_lines (some b2.type) rest)
          = _block_to_markdown b1 ++ "\n" ++ ("" ++ "\n" ++ _join_sep "\n" (_block_to_markdown b2
              :: _blocks_to_markdown_lines (some b2.type) rest)) from rfl]
      rw [show ("" : String) ++ "\n" = "\n" from rfl]
      rw [_append_two_newlines, ih b2 h2 hrest]
      simp [_join_fragments_spec, _sep_spec, hl]

theorem _serialize_nonempty (bs : List Block)
    (hall : ∀ b ∈ bs, _block_to_markdown b ≠ "") :
    blocks_to_markdown bs = _join_fragments_spec bs := by
  cases bs with
  | nil => rfl
  | cons b1 rest =>
    have h1 : _block_to_markdown b1 ≠ "" := hall b1 (by simp)
    have hrest : ∀ b ∈ rest, _block_to_markdown b ≠ "" := fun b hb => hall b (by simp [hb])
    unfold blocks_to_markdown
    simp only [_blocks_to_markdown_lines, if_neg h1, _py_truthy, Bool.false_and,
      Bool.false_eq_true, if_false, List.nil_append]
    exact _join_nonempty_fragments rest b1 h1 hrest

/-- Claim C2: in `blocks_to_markdown`, for every pair of consecutive
non-empty fragments — at any position of any block list, with the
empty-fragment blocks skipped in between — the separator is a single
newline when both blocks are list items (`bulleted_list_item` or
`numbered_list_item`, in any combination) and a blank line (two
newlines) otherwise; in particular a list item immediately followed by
a non-list block gets a blank line.  The whole output equals the
non-empty-fragment blocks joined pairwise with exactly the prescribed
separators. -/
theorem list_separator_rule (blocks : List Block) :
    blocks_to_markdown blocks =
      _join_fragments_spec (blocks.filter (fun b => _block_to_markdown b != "")) := by
  have hfil : ∀ b ∈ blocks.filter (fun b => _block_to_markdown b != ""),
      _block_to_markdown b ≠ "" := by
    intro b hb
    have := List.of_mem_filter hb
    simpa using this
  calc blocks_to_markdown blocks
      = blocks_to_markdown (blocks.filter (fun b => _block_to_markdown b != "")) := by
        unfold blocks_to_markdown
        rw [_blocks_to_markdown_lines_filter blocks none]
    _ = _join_fragments_spec (blocks.filter (fun b => _block_to_markdown b != "")) :=
        _serialize_nonempty _ hfil

theorem list_separator_rule_witness :
    blocks_to_markdown
        [{ type := "bulleted_list_item", rich_text := [_make_rich_text "a" {} none] },
         { type := "bulleted_list_item", rich_text := [_make_rich_text "b" {} none] },
         { type := "paragraph", rich_text := [] },
         { type := "paragraph", rich_text := [_make_rich_text "p" {} none] }] =
      _join_fragments_spec
        (List.filter (fun b => _block_to_markdown b != "")
          [{ type := "bulleted_list_item", rich_text := [_make_rich_text "a" {} none] },
           { type := "bulleted_list_item", rich_text := [_make_rich_text "b" {} none] },
           { type := "paragraph", rich_text := [] },
           { type := "paragraph", rich_text := [_make_rich_text "p" {} none] }]) :=
  list_separator_rule
    [{ type := "bulleted_list_item", rich_text := [_make_rich_text "a" {} none] },
     { type := "bulleted_list_item", rich_text := [_make_rich_text "b" {} none] },
     { type := "paragraph", rich_text := [] },
     { type := "paragraph", rich_text := [_make_rich_text "p" {} none] }]

/-! ## Claim C1: heading round trip -/

theorem _append_left_ne_empty (a b : String) (ha : a ≠ "") : a ++ b ≠ "" := by
  intro h
  apply ha
  have hd : a.data ++ b.data = [] := by
    have hc := congrArg String.data h
    rwa [String.data_append] at hc
  have ha0 : a.data = [] := (List.append_eq_nil.mp hd).1
  obtain ⟨ad⟩ := a
  simp only at ha0
  rw [ha0]

/-- Modelled from the spec: the Markdown parser front-end is the external
CommonMark tokenizer (markdown-it), an out-of-scope collaborator whose
code is not part of this repository.  On an input consisting solely of a
single ATX heading line `"#"×n + " " + text` (1 ≤ n ≤ 3, text free of
Markdown-special characters) it produces a `heading_open` token of level
n, an `inline` token whose single child is the heading text verbatim,
and the matching `heading_close`. -/
def heading_tokens (n : Nat) (text : String) : List Token :=
  [.heading_open n, .inline [.text text], .heading_close]

/-- The heading line `"#"×n + " " + text` (35 is the code point of the
number sign). -/
def heading_line (n : Nat) (text : String) : String :=
  String.mk (List.replicate n (Char.ofNat 35)) ++ " " ++ text

/-- Heading text free of Markdown-special characters: non-empty,
alphanumeric characters and spaces only, with no leading or trailing
space (leading or trailing whitespace would be trimmed by the ATX
heading rule and so is treated as special here). -/
def is_plain_heading_text (text : String) : Bool :=
  text != "" && text.data.all (fun c => c.isAlphanum || c == ' ')
    && text.data.head? != some ' ' && text.data.getLast? != some ' '

/-- Claim C1: for every Markdown string consisting solely of a single
heading line `"#"×n + " " + text` with n between 1 and 3 and text free
of Markdown-special characters, assembling the tokens of that line and
serializing the resulting blocks reproduces the string exactly
(`blocksToMarkdown (markdownToBlocks s) = s`). -/
theorem heading_round_trip_exact (n : Nat) (text : String) (hn1 : 1 ≤ n) (hn3 : n ≤ 3)
    (hplain : is_plain_heading_text text = true) :
    (_tokens_to_blocks (heading_tokens n text)).map blocks_to_markdown
      = some (heading_line n text) := by
  have htne : text ≠ "" := by
    simp only [is_plain_heading_text, Bool.and_eq_true, bne_iff_ne, ne_eq] at hplain
    exact hplain.1.1.1
  have hrun : _inline_to_rich_text [InlineToken.text text] = [_make_rich_text text {} none] := by
    simp [_inline_to_rich_text, _inline_to_rich_text_aux, htne]
  have hitem : _rich_text_item_to_markdown (_make_rich_text text {} none) = text := by
    simp [_rich_text_item_to_markdown, _make_rich_text]
  have hrt : _rich_text_to_markdown [_make_rich_text text {} none] = text := by
    simp [_rich_text_to_markdown, hitem]
  interval_cases n
  · have hty : ("heading_" ++ toString (min (1 : Nat) 3)) = "heading_1" := by decide
    have hblock : _tokens_to_blocks (heading_tokens 1 text)
        = some [{ type := "heading_1", rich_text := [_make_rich_text text {} none] }] := by
      simp only [heading_tokens, _tokens_to_blocks, Token.childrenOrEmpty, hrun, List.drop,
        _make_heading_block, hty]
    rw [hblock]
    simp only [Option.map_some']
    have hcne : ("# " ++ text) ≠ "" := _append_left_ne_empty "# " text (by decide)
    have hser : _block_to_markdown
        { type := "heading_1", rich_text := [_make_rich_text text {} none] }
          = "# " ++ text := by
      simp [_block_to_markdown, hrt]
    simp only [blocks_to_markdown, _blocks_to_markdown_lines, hser, if_neg hcne, _py_truthy,
      Bool.false_and, Bool.false_eq_true, if_false, List.nil_append, _join_sep]
    rfl
  · have hty : ("heading_" ++ toString (min (2 : Nat) 3)) = "heading_2" := by decide
    have hblock : _tokens_to_blocks (heading_tokens 2 text)
        = some [{ type := "heading_2", rich_text := [_make_rich_text text {} none] }] := by
      simp only [heading_tokens, _tokens_to_blocks, Token.childrenOrEmpty, hrun, List.drop,
        _make_heading_block, hty]
    rw [hblock]
    simp only [Option.map_some']
    have hcne : ("## " ++ text) ≠ "" := _append_left_ne_empty "## " text (by decide)
    have hser : _block_to_markdown
        { type := "heading_2", rich_text := [_make_rich_text text {} none] }
          = "## " ++ text := by
      simp [_block_to_markdown, hrt]
    simp only [blocks_to_markdown, _blocks_to_markdown_lines, hser, if_neg hcne, _py_truthy,
      Bool.false_and, Bool.false_eq_true, if_false, List.nil_append, _join_sep]
    rfl
  · have hty : ("heading_" ++ toString (min (3 : Nat) 3)) = "heading_3" := by decide
    have hblock : _tokens_to_blocks (heading_tokens 3 text)
        = some [{ type := "heading_3", rich_text := [_make_rich_text text {} none] }] := by
      simp only [heading_tokens, _tokens_to_blocks, Token.childrenOrEmpty, hrun, List.drop,
        _make_heading_block, hty]
    rw [hblock]
    simp only [Option.map_some']
    have hcne : ("### " ++ text) ≠ "" := _append_left_ne_empty "### " text (by decide)
    have hser : _block_to_markdown
        { type := "heading_3", rich_text := [_make_rich_text text {} none] }
          = "### " ++ text := by
      simp [_block_to_markdown, hrt]
    simp only [blocks_to_markdown, _blocks_to_markdown_lines, hser, if_neg hcne, _py_truthy,
      Bool.false_and, Bool.false_eq_true, if_false, List.nil_append, _join_sep]
    rfl

theorem heading_round_trip_exact_witness :
    (_tokens_to_blocks (heading_tokens 2 "Hello world")).map blocks_to_markdown
      = some (heading_line 2 "Hello world") :=
  heading_round_trip_exact 2 "Hello world" (by decide) (by decide) (by decide)

/-! ## Claim C9: no to-do blocks from Markdown -/

theorem _parse_list_aux_types : ∀ (list_type : String) (depth : Nat) (tokens : List Token)
    (r : List Block × Nat), _parse_list_aux list_type depth tokens = some r →
    ∀ b ∈ r.1, b.type = list_type := by
  intro list_type depth tokens
  induction depth, tokens using _parse_list_aux.induct list_type with
  | case1 tokens =>
    intro r h
    simp only [_parse_list_aux] at h
    cases h
    simp
  | case2 n =>
    intro r h
    simp only [_parse_list_aux] at h
    cases h
    simp
  | case3 d rest ih =>
    intro r h
    simp only [_parse_list_aux, Option.map_eq_some'] at h
    obtain ⟨r0, h0, hr⟩ := h
    subst hr
    exact ih r0 h0
  | case4 d rest ih =>
    intro r h
    simp only [_parse_list_aux, Option.map_eq_some'] at h
    obtain ⟨r0, h0, hr⟩ := h
    subst hr
    exact ih r0 h0
  | case5 d rest ih =>
    intro r h
    simp only [_parse_list_aux, Option.map_eq_some'] at h
    obtain ⟨r0, h0, hr⟩ := h
    subst hr
    exact ih r0 h0
  | case6 d rest ih =>
    intro r h
    simp only [_parse_list_aux, Option.map_eq_some'] at h
    obtain ⟨r0, h0, hr⟩ := h
    subst hr
    exact ih r0 h0
  | case7 rest hscan =>
    intro r h
    simp [_parse_list_aux, hscan] at h
  | case8 rest item_content k hscan hparse ih =>
    intro r h
    simp [_parse_list_aux, hscan, hparse] at h
  | case9 rest item_content k hscan blocks k2 hparse ih =>
    intro r h
    simp only [_parse_list_aux, hscan, hparse, if_pos rfl] at h
    cases h
    cases item_content with
    | nil =>
      intro b hb
      exact ih (blocks, k2) hparse b hb
    | cons rich_text tail =>
      intro b hb
      simp only [List.mem_cons] at hb
      rcases hb with hb | hb
      · rw [hb]
        rfl
      · exact ih (blocks, k2) hparse b hb
  | case10 d rest hd ih =>
    intro r h
    have hd0 : ¬(d = 0) := hd
    simp only [_parse_list_aux, if_neg hd0, Option.map_eq_some'] at h
    obtain ⟨r0, h0, hr⟩ := h
    subst hr
    exact ih r0 h0
  | case11 d token rest h1 h2 h3 h4 h5 ih =>
    intro r h
    cases token <;>
      first
        | exact absurd rfl h1
        | exact absurd rfl h2
        | exact absurd rfl h3
        | exact absurd rfl h4
        | exact absurd rfl h5
        | (simp only [_parse_list_aux, Option.map_eq_some'] at h
           obtain ⟨r0, h0, hr⟩ := h
           subst hr
           exact ih r0 h0)

theorem _heading_type_ne (s : String) : ("heading_" ++ s) ≠ "to_do" := by
  intro h
  have hlen := congrArg String.length h
  rw [String.length_append] at hlen
  have h8 : ("heading_" : String).length = 8 := rfl
  have h5 : ("to_do" : String).length = 5 := rfl
  rw [h8, h5] at hlen
  omega

/-- Modelled from the spec: the commonmark-preset tokenizer has no
task-list extension, so the checkbox-syntax line `"- [x] text"`
tokenizes as a plain bullet list whose single item carries the literal
text `"[x] text"` (bracket characters included) in one paragraph. -/
def checkbox_tokens : List Token :=
  [.bullet_list_open, .list_item_open, .paragraph_open, .inline [.text "[x] text"],
   .paragraph_close, .list_item_close, .bullet_list_close]

/-- Claim C9: no Markdown input produces a `to_do` block — for every
token stream, every block assembled by `_tokens_to_blocks` has a type
other than `to_do`; and the checkbox syntax `"- [x] text"` parses as an
ordinary `bulleted_list_item` whose text keeps the bracket
characters. -/
theorem no_to_do_from_markdown :
    (∀ (tokens : List Token) (bs : List Block), _tokens_to_blocks tokens = some bs →
      ∀ b ∈ bs, b.type ≠ "to_do")
    ∧ _tokens_to_blocks checkbox_tokens =
        some [{ type := "bulleted_list_item",
                rich_text := [_make_rich_text "[x] text" {} none] }] := by
  constructor
  · intro tokens
    induction tokens using _tokens_to_blocks.induct with
    | case1 =>
      intro bs h
      simp only [_tokens_to_blocks] at h
      cases h
      simp
    | case2 level =>
      intro bs h
      simp [_tokens_to_blocks] at h
    | case3 level inline_token rest1 hnone ih =>
      intro bs h
      simp only [_tokens_to_blocks, hnone] at h
      exact Option.noConfusion h
    | case4 level inline_token rest1 blocks hsome ih =>
      intro bs h
      simp only [_tokens_to_blocks, hsome] at h
      cases h
      intro b hb
      simp only [List.mem_cons] at hb
      rcases hb with hb | hb
      · rw [hb]
        exact _heading_type_ne _
      · exact ih blocks hsome b hb
    | case5 =>
      intro bs h
      simp [_tokens_to_blocks] at h
    | case6 inline_token rest1 hnone ih =>
      intro bs h
      simp only [_tokens_to_blocks, hnone] at h
      exact Option.noConfusion h
    | case7 inline_token rest1 blocks hsome ih =>
      intro bs h
      simp only [_tokens_to_blocks, hsome] at h
      cases h
      intro b hb
      simp only [List.mem_cons] at hb
      rcases hb with hb | hb
      · rw [hb]
        show ("paragraph" : String) ≠ "to_do"
        decide
      · exact ih blocks hsome b hb
    | case8 rest1 hnone =>
      intro bs h
      simp [_tokens_to_blocks, hnone] at h
    | case9 rest1 blocks k2 hparse hnone ih =>
      intro bs h
      simp [_tokens_to_blocks, hparse, hnone] at h
    | case10 rest1 blocks1 k2 hparse blocks2 hsome ih =>
      intro bs h
      simp only [_tokens_to_blocks, hparse, hsome] at h
      cases h
      intro b hb
      simp only [List.mem_append] at hb
      rcases hb with hb | hb
      · rw [_parse_list_aux_types "bulleted_list_item" 1 rest1 (blocks1, k2) hparse b hb]
        decide
      · exact ih blocks2 hsome b hb
    | case11 rest1 hnone =>
      intro bs h
      simp [_tokens_to_blocks, hnone] at h
    | case12 rest1 blocks k2 hparse hnone ih =>
      intro bs h
      simp [_tokens_to_blocks, hparse, hnone] at h
    | case13 rest1 blocks1 k2 hparse blocks2 hsome ih =>
      intro bs h
      simp only [_tokens_to_blocks, hparse, hsome] at h
      cases h
      intro b hb
      simp only [List.mem_append] at hb
      rcases hb with hb | hb
      · rw [_parse_list_aux_types "numbered_list_item" 1 rest1 (blocks1, k2) hparse b hb]
        decide
      · exact ih blocks2 hsome b hb
    | case14 rest1 info content hnone ih =>
      intro bs h
      simp [_tokens_to_blocks, hnone] at h
    | case15 rest1 info content blocks hsome ih =>
      intro bs h
      simp only [_tokens_to_blocks, hsome] at h
      cases h
      intro b hb
      simp only [List.mem_cons] at hb
      rcases hb with hb | hb
      · rw [hb]
        show ("code" : String) ≠ "to_do"
        decide
      · exact ih blocks hsome b hb
    | case16 rest1 content hnone ih =>
      intro bs h
      simp [_tokens_to_blocks, hnone] at h
    | case17 rest1 content blocks hsome ih =>
      intro bs h
      simp only [_tokens_to_blocks, hsome] at h
      cases h
      intro b hb
      simp only [List.mem_cons] at hb
      rcases hb with hb | hb
      · rw [hb]
        show ("code" : String) ≠ "to_do"
        decide
      · exact ih blocks hsome b hb
    | case18 rest1 hnone =>
      intro bs h
      simp [_tokens_to_blocks, hnone] at h
    | case19 rest1 quote_text consumed hparse hnone ih =>
      intro bs h
      simp [_tokens_to_blocks, hparse, hnone] at h
    | case20 rest1 quote_text consumed hparse blocks hsome ih =>
      intro bs h
      simp only [_tokens_to_blocks, hparse, hsome] at h
      cases h
      intro b hb
      simp only [List.mem_append] at hb
      rcases hb with hb | hb
      · cases quote_text with
        | nil => simp at hb
        | cons q qs =>
          simp only [List.mem_singleton] at hb
          rw [hb]
          show ("quote" : String) ≠ "to_do"
          decide
      · exact ih blocks hsome b hb
    | case21 rest1 hnone ih =>
      intro bs h
      simp [_tokens_to_blocks, hnone] at h
    | case22 rest1 blocks hsome ih =>
      intro bs h
      simp only [_tokens_to_blocks, hsome] at h
      cases h
      intro b hb
      simp only [List.mem_cons] at hb
      rcases hb with hb | hb
      · rw [hb]
        show ("divider" : String) ≠ "to_do"
        decide
      · exact ih blocks hsome b hb
    | case23 token rest1 h1 h2 h3 h4 h5 h6 h7 h8 ih =>
      intro bs h b hb
      cases token <;>
        first
          | exact absurd rfl (h1 _)
          | exact absurd rfl h2
          | exact absurd rfl h3
          | exact absurd rfl h4
          | exact absurd rfl (h5 _ _)
          | exact absurd rfl (h6 _)
          | exact absurd rfl h7
          | exact absurd rfl h8
          | (simp only [_tokens_to_blocks] at h
             exact ih bs h b hb)
  · simp [checkbox_tokens, _tokens_to_blocks, _parse_list_aux, _item_scan, _skip_count,
      _make_list_item_block, _inline_to_rich_text, _inline_to_rich_text_aux,
      Token.childrenOrEmpty]

theorem no_to_do_from_markdown_witness :
    (Block.type { type := "bulleted_list_item",
                  rich_text := [_make_rich_text "[x] text" {} none] }) ≠ "to_do" :=
  no_to_do_from_markdown.1 checkbox_tokens
    [{ type := "bulleted_list_item", rich_text := [_make_rich_text "[x] text" {} none] }]
    no_to_do_from_markdown.2
    { type := "bulleted_list_item", rich_text := [_make_rich_text "[x] text" {} none] }
    (by simp)

/-! ## Claim C8: totality on well-formed streams -/

/-- The per-token well-formedness check: a `heading_open` or
`paragraph_open` must be immediately followed by an `inline` token and
its matching close token (the shape the tokenizer guarantees); every
other token imposes no constraint. -/
def _wf_head : Token → List Token → Bool
  | .heading_open _, .inline _ :: .heading_close :: _ => true
  | .heading_open _, _ => false
  | .paragraph_open, .inline _ :: .paragraph_close :: _ => true
  | .paragraph_open, _ => false
  | _, _ => true

/-- A token stream is well formed when every suffix passes the per-token
check. -/
def wfStream : List Token → Bool
  | [] => true
  | token :: rest => _wf_head token rest && wfStream rest

theorem _wf_tail {token : Token} {rest : List Token} (h : wfStream (token :: rest) = true) :
    wfStream rest = true := by
  simp only [wfStream, Bool.and_eq_true] at h
  exact h.2

theorem _wf_drop (n : Nat) : ∀ (l : List Token), wfStream l = true → wfStream (l.drop n) = true := by
  induction n with
  | zero => intro l h; simpa using h
  | succ m ih =>
    intro l h
    cases l with
    | nil => simpa using h
    | cons t rest =>
      rw [List.drop_succ_cons]
      exact ih rest (_wf_tail h)

theorem _item_scan_total : ∀ (item_content : List (List RichText)) (tokens : List Token),
    wfStream tokens = true → (_item_scan item_content tokens).isSome = true := by
  intro item_content tokens
  induction item_content, tokens using _item_scan.induct with
  | case1 acc =>
    intro h
    simp [_item_scan]
  | case2 acc rest =>
    intro h
    simp [_item_scan]
  | case3 acc =>
    intro h
    simp [wfStream, _wf_head] at h
  | case4 acc inline_token rest1 ih =>
    intro h
    have hwf : wfStream (rest1.drop 1) = true := by
      have := _wf_drop 3 (Token.paragraph_open :: inline_token :: rest1) h
      simpa using this
    simp only [_item_scan, Option.isSome_map']
    exact ih hwf
  | case5 acc rest ih =>
    intro h
    have hwf : wfStream (rest.drop (_skip_count 1 rest)) = true :=
      _wf_drop _ rest (_wf_tail h)
    simp only [_item_scan, Option.isSome_map']
    exact ih hwf
  | case6 acc rest ih =>
    intro h
    have hwf : wfStream (rest.drop (_skip_count 1 rest)) = true :=
      _wf_drop _ rest (_wf_tail h)
    simp only [_item_scan, Option.isSome_map']
    exact ih hwf
  | case7 acc t ts h1 h2 h3 h4 ih =>
    intro h
    cases t <;>
      first
        | exact absurd rfl h1
        | exact absurd rfl h2
        | exact absurd rfl h3
        | exact absurd rfl h4
        | (simp only [_item_scan, Option.isSome_map']
           exact ih (_wf_tail h))

theorem _parse_list_aux_total : ∀ (list_type : String) (depth : Nat) (tokens : List Token),
    wfStream tokens = true → (_parse_list_aux list_type depth tokens).isSome = true := by
  intro list_type depth tokens
  induction depth, tokens using _parse_list_aux.induct list_type with
  | case1 tokens =>
    intro h
    simp [_parse_list_aux]
  | case2 n =>
    intro h
    simp [_parse_list_aux]
  | case3 d rest ih =>
    intro h
    simp only [_parse_list_aux, Option.isSome_map']
    exact ih (_wf_tail h)
  | case4 d rest ih =>
    intro h
    simp only [_parse_list_aux, Option.isSome_map']
    exact ih (_wf_tail h)
  | case5 d rest ih =>
    intro h
    simp only [_parse_list_aux, Option.isSome_map']
    exact ih (_wf_tail h)
  | case6 d rest ih =>
    intro h
    simp only [_parse_list_aux, Option.isSome_map']
    exact ih (_wf_tail h)
  | case7 rest hscan =>
    intro h
    have := _item_scan_total [] rest (_wf_tail h)
    rw [hscan] at this
    simp at this
  | case8 rest item_content k hscan hparse ih =>
    intro h
    have hwf : wfStream (rest.drop (k + 1)) = true := _wf_drop _ rest (_wf_tail h)
    have := ih hwf
    rw [hparse] at this
    simp at this
  | case9 rest item_content k hscan blocks k2 hparse ih =>
    intro h
    simp [_parse_list_aux, hscan, hparse]
  | case10 d rest hd ih =>
    intro h
    have hd0 : ¬(d = 0) := hd
    simp only [_parse_list_aux, if_neg hd0, Option.isSome_map']
    exact ih (_wf_tail h)
  | case11 d token rest h1 h2 h3 h4 h5 ih =>
    intro h
    cases token <;>
      first
        | exact absurd rfl h1
        | exact absurd rfl h2
        | exact absurd rfl h3
        | exact absurd rfl h4
        | exact absurd rfl h5
        | (simp only [_parse_list_aux, Option.isSome_map']
           exact ih (_wf_tail h))

theorem _parse_blockquote_aux_total : ∀ (depth : Nat) (tokens : List Token),
    wfStream tokens = true → (_parse_blockquote_aux depth tokens).isSome = true := by
  intro depth tokens
  induction depth, tokens using _parse_blockquote_aux.induct with
  | case1 tokens =>
    intro h
    simp [_parse_blockquote_aux]
  | case2 n =>
    intro h
    simp [_parse_blockquote_aux]
  | case3 d rest ih =>
    intro h
    simp only [_parse_blockquote_aux, Option.isSome_map']
    exact ih (_wf_tail h)
  | case4 d rest ih =>
    intro h
    simp only [_parse_blockquote_aux, Option.isSome_map']
    exact ih (_wf_tail h)
  | case5 =>
    intro h
    simp [wfStream, _wf_head] at h
  | case6 inline_token rest1 ih =>
    intro h
    have hwf : wfStream (rest1.drop 1) = true := by
      have := _wf_drop 3 (Token.paragraph_open :: inline_token :: rest1) h
      simpa using this
    simp [_parse_blockquote_aux, Option.isSome_map']
    rw [← List.drop_one]
    exact ih hwf
  | case7 d rest hd ih =>
    intro h
    have hd0 : ¬(d = 0) := hd
    rw [_parse_blockquote_aux.eq_def]
    simp [hd0, Option.isSome_map']
    exact ih (_wf_tail h)
  | case8 d token rest h1 h2 h3 ih =>
    intro h
    cases token <;>
      first
        | exact absurd rfl h1
        | exact absurd rfl h2
        | exact absurd rfl h3
        | (simp only [_parse_blockquote_aux, Option.isSome_map']
           exact ih (_wf_tail h))

/-- Claim C8: on every token stream in which each `heading_open` and
each `paragraph_open` is immediately followed by an `inline` token and
its matching close token (the balance the tokenizer guarantees), every
cursor access of the assembler is in range and assembly succeeds, so the
assembly underlying `markdownToBlocks` is total. -/
theorem assembler_total_on_wf_streams : ∀ tokens : List Token,
    wfStream tokens = true → (_tokens_to_blocks tokens).isSome = true := by
  intro tokens
  induction tokens using _tokens_to_blocks.induct with
  | case1 =>
    intro h
    simp [_tokens_to_blocks]
  | case2 level =>
    intro h
    simp [wfStream, _wf_head] at h
  | case3 level inline_token rest1 hnone ih =>
    intro h
    have hwf : wfStream (rest1.drop 1) = true := by
      have := _wf_drop 3 (Token.heading_open level :: inline_token :: rest1) h
      simpa using this
    have := ih hwf
    rw [hnone] at this
    simp at this
  | case4 level inline_token rest1 blocks hsome ih =>
    intro h
    simp only [_tokens_to_blocks, hsome, Option.isSome_some]
  | case5 =>
    intro h
    simp [wfStream, _wf_head] at h
  | case6 inline_token rest1 hnone ih =>
    intro h
    have hwf : wfStream (rest1.drop 1) = true := by
      have := _wf_drop 3 (Token.paragraph_open :: inline_token :: rest1) h
      simpa using this
    have := ih hwf
    rw [hnone] at this
    simp at this
  | case7 inline_token rest1 blocks hsome ih =>
    intro h
    simp only [_tokens_to_blocks, hsome, Option.isSome_some]
  | case8 rest1 hparse =>
    intro h
    have := _parse_list_aux_total "bulleted_list_item" 1 rest1 (_wf_tail h)
    rw [hparse] at this
    simp at this
  | case9 rest1 blocks k2 hparse hnone ih =>
    intro h
    have := ih (_wf_drop k2 rest1 (_wf_tail h))
    rw [hnone] at this
    simp at this
  | case10 rest1 blocks1 k2 hparse blocks2 hsome ih =>
    intro h
    simp only [_tokens_to_blocks, hparse, hsome, Option.isSome_some]
  | case11 rest1 hparse =>
    intro h
    have := _parse_list_aux_total "numbered_list_item" 1 rest1 (_wf_tail h)
    rw [hparse] at this
    simp at this
  | case12 rest1 blocks k2 hparse hnone ih =>
    intro h
    have := ih (_wf_drop k2 rest1 (_wf_tail h))
    rw [hnone] at this
    simp at this
  | case13 rest1 blocks1 k2 hparse blocks2 hsome ih =>
    intro h
    simp only [_tokens_to_blocks, hparse, hsome, Option.isSome_some]
  | case14 rest1 info content hnone ih =>
    intro h
    have := ih (_wf_tail h)
    rw [hnone] at this
    simp at this
  | case15 rest1 info content blocks hsome ih =>
    intro h
    simp only [_tokens_to_blocks, hsome, Option.isSome_some]
  | case16 rest1 content hnone ih =>
    intro h
    have := ih (_wf_tail h)
    rw [hnone] at this
    simp at this
  | case17 rest1 content blocks hsome ih =>
    intro h
    simp only [_tokens_to_blocks, hsome, Option.isSome_some]
  | case18 rest1 hparse =>
    intro h
    have := _parse_blockquote_aux_total 1 rest1 (_wf_tail h)
    rw [hparse] at this
    simp at this
  | case19 rest1 quote_text consumed hparse hnone ih =>
    intro h
    have := ih (_wf_drop consumed rest1 (_wf_tail h))
    rw [hnone] at this
    simp at this
  | case20 rest1 quote_text consumed hparse blocks hsome ih =>
    intro h
    simp only [_tokens_to_blocks, hparse, hsome, Option.isSome_some]
  | case21 rest1 hnone ih =>
    intro h
    have := ih (_wf_tail h)
    rw [hnone] at this
    simp at this
  | case22 rest1 blocks hsome ih =>
    intro h
    simp only [_tokens_to_blocks, hsome, Option.isSome_some]
  | case23 token rest1 h1 h2 h3 h4 h5 h6 h7 h8 ih =>
    intro h
    cases token <;>
      first
        | exact absurd rfl (h1 _)
        | exact absurd rfl h2
        | exact absurd rfl h3
        | exact absurd rfl h4
        | exact absurd rfl (h5 _ _)
        | exact absurd rfl (h6 _)
        | exact absurd rfl h7
        | exact absurd rfl h8
        | (simp only [_tokens_to_blocks]
           exact ih (_wf_tail h))

theorem assembler_total_on_wf_streams_witness :
    (_tokens_to_blocks
        [.heading_open 1, .inline [.text "T"], .heading_close,
         .bullet_list_open, .list_item_open,
         .paragraph_open, .inline [.text "item"], .paragraph_close,
         .list_item_close, .bullet_list_close,
         .blockquote_open, .paragraph_open, .inline [.text "q"], .paragraph_close,
         .blockquote_close]).isSome = true :=
  assembler_total_on_wf_streams
    [.heading_open 1, .inline [.text "T"], .heading_close,
     .bullet_list_open, .list_item_open,
     .paragraph_open, .inline [.text "item"], .paragraph_close,
     .list_item_close, .bullet_list_close,
     .blockquote_open, .paragraph_open, .inline [.text "q"], .paragraph_close,
     .blockquote_close] (by decide)

/-! ## Claim C5: list assembly -/

/-- Token is a list-open token (`bullet_list_open` or
`ordered_list_open`). -/
def _is_list_open_tok : Token → Bool
  | .bullet_list_open => true
  | .ordered_list_open => true
  | _ => false

/-- Token is a list-close token (`bullet_list_close` or
`ordered_list_close`). -/
def _is_list_close_tok : Token → Bool
  | .bullet_list_close => true
  | .ordered_list_close => true
  | _ => false

/-- Token sequences balanced with respect to list open/close tokens —
the shape of the body of a well-formed nested list, as the tokenizer
guarantees it. -/
inductive BalancedListTokens : List Token → Prop where
  | nil : BalancedListTokens []
  | plain (t : Token) (ts : List Token) :
      _is_list_open_tok t = false → _is_list_close_tok t = false →
      BalancedListTokens ts → BalancedListTokens (t :: ts)
  | wrap (o c : Token) (inner rest : List Token) :
      _is_list_open_tok o = true → _is_list_close_tok c = true →
      BalancedListTokens inner → BalancedListTokens rest →
      BalancedListTokens (o :: (inner ++ c :: rest))

theorem _skip_count_cons_plain (t : Token) (ts : List Token) (d : Nat)
    (h1 : _is_list_open_tok t = false) (h2 : _is_list_close_tok t = false) :
    _skip_count (d + 1) (t :: ts) = _skip_count (d + 1) ts + 1 := by
  cases t <;> simp_all [_skip_count, _is_list_open_tok, _is_list_close_tok]

theorem _skip_count_cons_open (t : Token) (ts : List Token) (d : Nat)
    (h1 : _is_list_open_tok t = true) :
    _skip_count (d + 1) (t :: ts) = _skip_count (d + 2) ts + 1 := by
  cases t <;> simp_all [_skip_count, _is_list_open_tok]

theorem _skip_count_cons_close (t : Token) (ts : List Token) (d : Nat)
    (h1 : _is_list_close_tok t = true) :
    _skip_count (d + 1) (t :: ts) = _skip_count d ts + 1 := by
  cases t <;> simp_all [_skip_count, _is_list_close_tok]

theorem _skip_count_balanced {ts : List Token} (hb : BalancedListTokens ts) :
    ∀ (d : Nat) (rest : List Token),
      _skip_count (d + 1) (ts ++ rest) = ts.length + _skip_count (d + 1) rest := by
  induction hb with
  | nil => intro d rest; simp
  | plain t ts h1 h2 hts ih =>
    intro d rest
    rw [List.cons_append, _skip_count_cons_plain t (ts ++ rest) d h1 h2, ih d rest]
    simp
    omega
  | wrap o c inner rest0 ho hc hinner hrest ihinner ihrest =>
    intro d rest
    have hshape : (o :: (inner ++ c :: rest0)) ++ rest
        = o :: (inner ++ (c :: (rest0 ++ rest))) := by simp
    rw [hshape, _skip_count_cons_open o _ d ho, ihinner (d + 1) (c :: (rest0 ++ rest)),
      _skip_count_cons_close c _ (d + 1) hc, ihrest d rest]
    simp
    omega

/-- The token region of a single depth-1 list item (between
`list_item_open` and its `list_item_close`), together with the inline
children of each of its direct paragraphs, in order: a sequence of
direct paragraphs, nested sub-lists (whose bodies are balanced and whose
content is recorded nowhere), and other block tokens. -/
inductive ItemTokens : List Token → List (List InlineToken) → Prop where
  | nil : ItemTokens [] []
  | para (children : List InlineToken) (ts : List Token) (ps : List (List InlineToken)) :
      ItemTokens ts ps →
      ItemTokens (.paragraph_open :: .inline children :: .paragraph_close :: ts) (children :: ps)
  | nested (o c : Token) (inner ts : List Token) (ps : List (List InlineToken)) :
      _is_list_open_tok o = true → _is_list_close_tok c = true →
      BalancedListTokens inner → ItemTokens ts ps →
      ItemTokens (o :: (inner ++ c :: ts)) ps
  | other (t : Token) (ts : List Token) (ps : List (List InlineToken)) :
      t ≠ .paragraph_open → _is_list_open_tok t = false → t ≠ .list_item_close →
      ItemTokens ts ps → ItemTokens (t :: ts) ps

theorem _item_scan_cons_other (acc : List (List RichText)) (t : Token) (ts : List Token)
    (h1 : t ≠ .paragraph_open) (h2 : _is_list_open_tok t = false)
    (h3 : t ≠ .list_item_close) :
    _item_scan acc (t :: ts) = (_item_scan acc ts).map (fun r => (r.1, r.2 + 1)) := by
  cases t <;> simp_all [_item_scan, _is_list_open_tok]

theorem _item_scan_items {its : List Token} {ps : List (List InlineToken)}
    (hi : ItemTokens its ps) :
    ∀ (acc : List (List RichText)) (rest : List Token),
      _item_scan acc (its ++ .list_item_close :: rest)
        = some (acc ++ ps.map _inline_to_rich_text, its.length) := by
  induction hi with
  | nil =>
    intro acc rest
    simp [_item_scan]
  | para children ts ps hts ih =>
    intro acc rest
    simp only [List.cons_append]
    rw [_item_scan]
    simp only [List.drop_one, List.tail_cons, Token.childrenOrEmpty]
    rw [ih (acc ++ [_inline_to_rich_text children]) rest]
    simp only [Option.map_some']
    simp
  | nested o c inner ts ps ho hc hinner hts ih =>
    intro acc rest
    have hshape : (o :: (inner ++ c :: ts)) ++ Token.list_item_close :: rest
        = o :: (inner ++ (c :: (ts ++ Token.list_item_close :: rest))) := by simp
    rw [hshape]
    have hskip : _skip_count 1 (inner ++ (c :: (ts ++ Token.list_item_close :: rest)))
        = inner.length + 1 := by
      rw [_skip_count_balanced hinner 0 (c :: (ts ++ Token.list_item_close :: rest)),
        _skip_count_cons_close c _ 0 hc]
      simp [_skip_count]
    have hdrop : (inner ++ (c :: (ts ++ Token.list_item_close :: rest))).drop (inner.length + 1)
        = ts ++ Token.list_item_close :: rest := by
      have hshape2 : inner ++ (c :: (ts ++ Token.list_item_close :: rest))
          = (inner ++ [c]) ++ (ts ++ Token.list_item_close :: rest) := by simp
      have hlen : inner.length + 1 = (inner ++ [c]).length := by simp
      rw [hshape2, hlen, List.drop_left]
    have hscan : _item_scan acc (o :: (inner ++ (c :: (ts ++ Token.list_item_close :: rest))))
        = (_item_scan acc ((inner ++ (c :: (ts ++ Token.list_item_close :: rest))).drop
              (_skip_count 1 (inner ++ (c :: (ts ++ Token.list_item_close :: rest)))))).map
            (fun r => (r.1, r.2 + _skip_count 1 (inner ++ (c :: (ts ++ Token.list_item_close :: rest))) + 1)) := by
      cases o <;> simp_all [_item_scan, _is_list_open_tok]
    rw [hscan, hskip, hdrop, ih acc rest]
    simp only [Option.map_some']
    simp
    omega
  | other t ts ps h1 h2 h3 hts ih =>
    intro acc rest
    rw [List.cons_append, _item_scan_cons_other acc t _ h1 h2 h3, ih acc rest]
    simp only [Option.map_some']
    simp

/-- The token region of a well-formed list, starting just past the
`list_open` token and ending with the matching list-close token, with
the per-item direct-paragraph contents: each element of `items` lists
the inline children of the direct paragraphs of one depth-1 item, in
order. -/
inductive ListItemsTokens : List Token → List (List (List InlineToken)) → Prop where
  | close (c : Token) : _is_list_close_tok c = true → ListItemsTokens [c] []
  | item (its : List Token) (ps : List (List InlineToken)) (ts : List Token)
      (items : List (List (List InlineToken))) :
      ItemTokens its ps → ListItemsTokens ts items →
      ListItemsTokens (.list_item_open :: (its ++ .list_item_close :: ts)) (ps :: items)

/-- Claim C5: for every well-formed list token region, the assembler
produces exactly one list-item block per depth-1 item that has direct
paragraph content, the block's rich text being the resolved content of
that item's first direct paragraph only; an item with no direct
paragraph yields no block, the content of nested lists under an item
appears in no output block, and the whole region is consumed. -/
theorem list_assembler_first_paragraph_only (ts : List Token)
    (items : List (List (List InlineToken))) (hl : ListItemsTokens ts items) :
    ∀ (list_type : String) (rest : List Token),
      _parse_list_aux list_type 1 (ts ++ rest)
        = some (items.filterMap
            (fun ps => ps.head?.map
              (fun children => _make_list_item_block list_type (_inline_to_rich_text children))),
            ts.length) := by
  induction hl with
  | close c hc =>
    intro list_type rest
    have hstep : _parse_list_aux list_type 1 (c :: rest)
        = (_parse_list_aux list_type 0 rest).map (fun r => (r.1, r.2 + 1)) := by
      cases c <;> simp_all [_parse_list_aux, _is_list_close_tok]
    rw [List.cons_append, List.nil_append] at *
    rw [hstep]
    simp [_parse_list_aux]
  | item its ps ts0 items0 hits hrest ih =>
    intro list_type rest
    have hshape : (Token.list_item_open :: (its ++ Token.list_item_close :: ts0)) ++ rest
        = Token.list_item_open :: (its ++ Token.list_item_close :: (ts0 ++ rest)) := by simp
    rw [hshape]
    have hscan := _item_scan_items hits [] (ts0 ++ rest)
    have hdrop : (its ++ Token.list_item_close :: (ts0 ++ rest)).drop (its.length + 1)
        = ts0 ++ rest := by
      have hshape2 : its ++ Token.list_item_close :: (ts0 ++ rest)
          = (its ++ [Token.list_item_close]) ++ (ts0 ++ rest) := by simp
      have hlen : its.length + 1 = (its ++ [Token.list_item_close]).length := by simp
      rw [hshape2, hlen, List.drop_left]
    rw [_parse_list_aux]
    simp only [if_pos rfl, hscan, List.nil_append, hdrop, ih list_type rest]
    cases ps with
    | nil =>
      simp only [List.map_nil, List.filterMap_cons, List.head?_nil, Option.map_none']
      simp
      omega
    | cons children ptail =>
      simp only [List.map_cons, List.filterMap_cons, List.head?_cons, Option.map_some']
      simp
      omega

theorem list_assembler_first_paragraph_only_witness :
    _parse_list_aux "bulleted_list_item" 1
        ([Token.list_item_open,
          Token.paragraph_open, Token.inline [InlineToken.text "hello"], Token.paragraph_close,
          Token.bullet_list_open,
          Token.list_item_open, Token.paragraph_open, Token.inline [InlineToken.text "nested"],
          Token.paragraph_close, Token.list_item_close,
          Token.bullet_list_close,
          Token.paragraph_open, Token.inline [InlineToken.text "ignored"], Token.paragraph_close,
          Token.list_item_close,
          Token.list_item_open, Token.list_item_close,
          Token.bullet_list_close] ++ [])
      = some (List.filterMap
          (fun ps => ps.head?.map
            (fun children => _make_list_item_block "bulleted_list_item"
              (_inline_to_rich_text children)))
          [[[InlineToken.text "hello"], [InlineToken.text "ignored"]], []],
          18) := by
  have hinner : BalancedListTokens
      [Token.list_item_open, Token.paragraph_open, Token.inline [InlineToken.text "nested"],
       Token.paragraph_close, Token.list_item_close] := by
    refine BalancedListTokens.plain _ _ rfl rfl ?_
    refine BalancedListTokens.plain _ _ rfl rfl ?_
    refine BalancedListTokens.plain _ _ rfl rfl ?_
    refine BalancedListTokens.plain _ _ rfl rfl ?_
    refine BalancedListTokens.plain _ _ rfl rfl ?_
    exact BalancedListTokens.nil
  have hits1 : ItemTokens
      [Token.paragraph_open, Token.inline [InlineToken.text "hello"], Token.paragraph_close,
       Token.bullet_list_open,
       Token.list_item_open, Token.paragraph_open, Token.inline [InlineToken.text "nested"],
       Token.paragraph_close, Token.list_item_close,
       Token.bullet_list_close,
       Token.paragraph_open, Token.inline [InlineToken.text "ignored"], Token.paragraph_close]
      [[InlineToken.text "hello"], [InlineToken.text "ignored"]] := by
    refine ItemTokens.para _ _ _ ?_
    refine ItemTokens.nested Token.bullet_list_open Token.bullet_list_close
      [Token.list_item_open, Token.paragraph_open, Token.inline [InlineToken.text "nested"],
       Token.paragraph_close, Token.list_item_close]
      [Token.paragraph_open, Token.inline [InlineToken.text "ignored"], Token.paragraph_close]
      _ rfl rfl hinner ?_
    refine ItemTokens.para _ _ _ ?_
    exact ItemTokens.nil
  have hlist : ListItemsTokens
      [Token.list_item_open,
       Token.paragraph_open, Token.inline [InlineToken.text "hello"], Token.paragraph_close,
       Token.bullet_list_open,
       Token.list_item_open, Token.paragraph_open, Token.inline [InlineToken.text "nested"],
       Token.paragraph_close, Token.list_item_close,
       Token.bullet_list_close,
       Token.paragraph_open, Token.inline [InlineToken.text "ignored"], Token.paragraph_close,
       Token.list_item_close,
       Token.list_item_open, Token.list_item_close,
       Token.bullet_list_close]
      [[[InlineToken.text "hello"], [InlineToken.text "ignored"]], []] := by
    refine ListItemsTokens.item _ _ _ _ hits1 ?_
    refine ListItemsTokens.item [] [] _ _ ItemTokens.nil ?_
    exact ListItemsTokens.close Token.bullet_list_close rfl
  exact list_assembler_first_paragraph_only _ _ hlist "bulleted_list_item" []
